import Mathlib

/-!
Verification of the phased-array-antennas repository.

This file gives a shallow embedding of the sweep sequencing and
angle/command computation engine of `code/array_chamber_test`
(`chamber_controller.py`, `array_controller.py`, `hardware_interface.py`,
`system_messages.py`, `config.py`) together with the standalone grid
rotation utility
(`code/array_patch_calcualtions/array_translation_rotation_prototype.py`),
and proves or refutes the frozen claims about it.

Modelling conventions:
* Python floats are idealised as rationals (`ℚ`); the trigonometric
  elevation computation, which calls `math.sin`, is idealised over the
  reals (`ℝ`).
* Python `round` is banker's rounding (round half to even); it is
  modelled exactly on `ℚ` by `pyRound`.
* Side effects on the two collaborators (serial transport, measurement
  runner) are modelled as an explicit event trace (`Event`); `print`
  logging is observability only (per the spec) and is not modelled.
* Python exceptions (`AttributeError`, `KeyError`, `TypeError`) are
  modelled with `Except PyError`.
* `random.randint(a, b)` is modelled as an injected source
  `randint : ℤ → ℤ → ℕ → ℤ` (lower bound, upper bound, draw counter);
  Python's `randint` contract is that the result lies in the closed
  interval `[a, b]`, both endpoints included.
-/

/-! ## AttenuationCodec: `HardwareInterface.to_attenuation_code` -/

/-- Python `round` on an exact rational value: round half to even
(banker's rounding), as used by `int(round(db * 4))` in
`hardware_interface.py`. -/
def pyRound (q : ℚ) : ℤ :=
  if q - ⌊q⌋ < 1/2 then ⌊q⌋
  else if 1/2 < q - ⌊q⌋ then ⌊q⌋ + 1
  else if 2 ∣ ⌊q⌋ then ⌊q⌋ else ⌊q⌋ + 1

/-- Embedding of `HardwareInterface.to_attenuation_code` from `hardware_interface.py`:
`db -= insertion_loss_db; return int(round(db * 4)) if db >= 0 else 0`. -/
def to_attenuation_code (db insertion_loss_db : ℚ) : ℤ :=
  if 0 ≤ db - insertion_loss_db then pyRound ((db - insertion_loss_db) * 4)
  else 0

/-- Rounding a nonnegative rational gives a nonnegative integer. -/
theorem pyRound_nonneg {q : ℚ} (hq : 0 ≤ q) : 0 ≤ pyRound q := by
  have hf : (0 : ℤ) ≤ ⌊q⌋ := Int.floor_nonneg.mpr hq
  unfold pyRound
  split
  · exact hf
  · split
    · omega
    · split <;> omega

/-- C9. `to_attenuation_code` is a total function that returns
`pyRound ((power_db - insertion_loss_db) * 4)` whenever
`power_db - insertion_loss_db >= 0` and `0` otherwise, so the result is
always a non-negative integer; in particular
`to_attenuation_code 0.0 1.6 = 0` and `to_attenuation_code 5.0 1.6 = 14`. -/
theorem c9_attenuation_code_spec :
    (∀ p il : ℚ, 0 ≤ p - il → to_attenuation_code p il = pyRound ((p - il) * 4)) ∧
    (∀ p il : ℚ, p - il < 0 → to_attenuation_code p il = 0) ∧
    (∀ p il : ℚ, 0 ≤ to_attenuation_code p il) ∧
    to_attenuation_code 0 1.6 = 0 ∧
    to_attenuation_code 5 1.6 = 14 := by
  refine ⟨?_, ?_, ?_, ?_, ?_⟩
  · intro p il h
    simp [to_attenuation_code, h]
  · intro p il h
    simp [to_attenuation_code, not_le.mpr h]
  · intro p il
    unfold to_attenuation_code
    split
    · exact pyRound_nonneg (by positivity)
    · exact le_refl 0
  · norm_num [to_attenuation_code]
  · norm_num [to_attenuation_code, pyRound]

/-- Witness for C9: the theorem instantiated at the two documented
sample points. -/
theorem c9_attenuation_code_spec_witness :
    to_attenuation_code 5 1.6 = pyRound ((5 - 1.6) * 4) ∧
    to_attenuation_code 0 1.6 = 0 := by
  constructor
  · exact c9_attenuation_code_spec.1 5 1.6 (by norm_num)
  · exact c9_attenuation_code_spec.2.2.2.1

/-! ## Grid rotation utility
(`array_translation_rotation_prototype.py`) -/

/-- Rotation constant from `ROT_0, ROT_90, ROT_180, ROT_270 = range(4)`. -/
def ROT_0 : ℕ := 0

/-- Rotation constant `ROT_90 = 1`. -/
def ROT_90 : ℕ := 1

/-- Rotation constant `ROT_180 = 2`. -/
def ROT_180 : ℕ := 2

/-- Rotation constant `ROT_270 = 3`. -/
def ROT_270 : ℕ := 3

/-- Embedding of `matrix_rotation` from `array_translation_rotation_prototype.py`:
`x, y = i % nx, i // nx`, then the rotated index per rotation constant. -/
def matrix_rotation (i nx ny rotation : ℕ) : ℕ :=
  let x := i % nx
  let y := i / nx
  if rotation = ROT_90 then y + (nx - 1 - x) * ny
  else if rotation = ROT_180 then (nx - 1 - x) + (ny - 1 - y) * nx
  else if rotation = ROT_270 then x * nx + (ny - 1 - y)
  else i

/-- Embedding of `patch_pos_update` from `array_translation_rotation_prototype.py`:
`new_patches = [None] * len(patches)`, then for every `i` in
`range(nx * ny)` place `patches[i]` at index `matrix_rotation(i, ...)`.
Python's `None`-initialised slots are modelled with `Option`. -/
def patch_pos_update {α : Type} (array_rotation nx ny : ℕ)
    (patches : List (Option α)) : List (Option α) :=
  (List.range (nx * ny)).foldl
    (fun acc i => acc.set (matrix_rotation i nx ny array_rotation)
      ((patches.getD i none)))
    (List.replicate patches.length none)

/-! ### Round-trip lemmas for the grid rotation -/

lemma mr90_eq (n i : ℕ) :
    matrix_rotation i n n ROT_90 = i / n + (n - 1 - i % n) * n := rfl

lemma mr180_eq (n i : ℕ) :
    matrix_rotation i n n ROT_180 = (n - 1 - i % n) + (n - 1 - i / n) * n := rfl

lemma mr270_eq (n i : ℕ) :
    matrix_rotation i n n ROT_270 = i % n * n + (n - 1 - i / n) := rfl

lemma coord_mod (n c r : ℕ) (hc : c < n) : (c + r * n) % n = c := by
  rw [Nat.add_mul_mod_self_right, Nat.mod_eq_of_lt hc]

lemma coord_div (n c r : ℕ) (hc : c < n) (hn : 0 < n) : (c + r * n) / n = r := by
  rw [Nat.add_mul_div_right _ _ hn, Nat.div_eq_of_lt hc, Nat.zero_add]

lemma coord_lt (n c r : ℕ) (hc : c < n) (hr : r < n) : c + r * n < n * n := by
  obtain ⟨k, rfl⟩ : ∃ k, n = k + 1 := ⟨n - 1, by omega⟩
  have h1 : r * (k + 1) ≤ k * (k + 1) := Nat.mul_le_mul_right _ (by omega)
  have h2 : (k + 1) + k * (k + 1) = (k + 1) * (k + 1) := by ring
  omega

lemma div_lt_of_lt_sq {n i : ℕ} (hn : 0 < n) (hi : i < n * n) : i / n < n :=
  (Nat.div_lt_iff_lt_mul hn).mpr hi

lemma sub_one_sub_lt {n x : ℕ} (hn : 0 < n) : n - 1 - x < n :=
  lt_of_le_of_lt (Nat.sub_le _ _) (Nat.sub_lt hn Nat.one_pos)

lemma mr90_lt {n i : ℕ} (hn : 0 < n) (hi : i < n * n) :
    matrix_rotation i n n ROT_90 < n * n := by
  rw [mr90_eq]
  exact coord_lt n _ _ (div_lt_of_lt_sq hn hi) (sub_one_sub_lt hn)

lemma mr180_lt {n i : ℕ} (hn : 0 < n) (hi : i < n * n) :
    matrix_rotation i n n ROT_180 < n * n := by
  rw [mr180_eq]
  exact coord_lt n _ _ (sub_one_sub_lt hn) (sub_one_sub_lt hn)

lemma mr90_mr90 {n i : ℕ} (hn : 0 < n) (hi : i < n * n) :
    matrix_rotation (matrix_rotation i n n ROT_90) n n ROT_90 =
      matrix_rotation i n n ROT_180 := by
  have hY : i / n < n := div_lt_of_lt_sq hn hi
  rw [mr90_eq, mr90_eq, mr180_eq, coord_mod n _ _ hY, coord_div n _ _ hY hn]

lemma mr180_mr180 {n i : ℕ} (hn : 0 < n) (hi : i < n * n) :
    matrix_rotation (matrix_rotation i n n ROT_180) n n ROT_180 = i := by
  have hX : i % n < n := Nat.mod_lt i hn
  have hY : i / n < n := div_lt_of_lt_sq hn hi
  rw [mr180_eq, mr180_eq, coord_mod n _ _ (by omega), coord_div n _ _ (by omega) hn,
    Nat.sub_sub_self (by omega : i % n ≤ n - 1), Nat.sub_sub_self (by omega : i / n ≤ n - 1),
    Nat.mod_add_div' i n]

lemma mr270_mr90 {n i : ℕ} (hn : 0 < n) (hi : i < n * n) :
    matrix_rotation (matrix_rotation i n n ROT_90) n n ROT_270 = i := by
  have hX : i % n < n := Nat.mod_lt i hn
  have hY : i / n < n := div_lt_of_lt_sq hn hi
  rw [mr90_eq, mr270_eq, coord_mod n _ _ hY, coord_div n _ _ hY hn,
    Nat.sub_sub_self (by omega : i % n ≤ n - 1), Nat.div_add_mod' i n]

lemma scatter_length {α : Type} (s : ℕ → ℕ) (l init : List (Option α)) (k : ℕ) :
    ((List.range k).foldl (fun acc i => acc.set (s i) (l.getD i none)) init).length
      = init.length := by
  induction k with
  | zero => simp
  | succ k ih =>
    rw [List.range_succ, List.foldl_append]
    simp only [List.foldl_cons, List.foldl_nil, List.length_set]
    exact ih

lemma scatter_get {α : Type} (s : ℕ → ℕ) (l init : List (Option α)) (k : ℕ)
    (hinj : ∀ i1 < k, ∀ i2 < k, s i1 = s i2 → i1 = i2)
    (hbound : ∀ i < k, s i < init.length)
    (i : ℕ) (hik : i < k) :
    ((List.range k).foldl (fun acc i => acc.set (s i) (l.getD i none)) init)[s i]?
      = some (l.getD i none) := by
  induction k with
  | zero => omega
  | succ k ih =>
    rw [List.range_succ, List.foldl_append]
    simp only [List.foldl_cons, List.foldl_nil]
    by_cases h : i = k
    · subst h
      have hlen : ((List.range i).foldl
          (fun acc j => acc.set (s j) (l.getD j none)) init).length = init.length :=
        scatter_length s l init i
      exact List.getElem?_set_eq_of_lt _ (by rw [hlen]; exact hbound i hik)
    · have hik' : i < k := by omega
      have hne : s k ≠ s i := fun hc =>
        h ((hinj k (by omega) i (by omega) hc).symm)
      rw [List.getElem?_set_ne hne]
      exact ih (fun i1 h1 i2 h2 => hinj i1 (by omega) i2 (by omega))
        (fun j hj => hbound j (by omega)) hik'

lemma ppu_length {α : Type} (rot n : ℕ) (l : List (Option α)) :
    (patch_pos_update rot n n l).length = l.length := by
  unfold patch_pos_update
  rw [scatter_length]
  exact List.length_replicate _ _

lemma ppu_get {α : Type} (rot n : ℕ)
    (hinj : ∀ i1 < n * n, ∀ i2 < n * n,
      matrix_rotation i1 n n rot = matrix_rotation i2 n n rot → i1 = i2)
    (hbound : ∀ i < n * n, matrix_rotation i n n rot < n * n)
    (l : List (Option α)) (hl : l.length = n * n) (i : ℕ) (hi : i < n * n) :
    (patch_pos_update rot n n l)[matrix_rotation i n n rot]?
      = some (l.getD i none) := by
  unfold patch_pos_update
  exact scatter_get (fun j => matrix_rotation j n n rot) l _ (n * n) hinj
    (fun j hj => by
      rw [List.length_replicate, hl]
      exact hbound j hj) i hi

lemma ppu_getD {α : Type} (rot n : ℕ)
    (hinj : ∀ i1 < n * n, ∀ i2 < n * n,
      matrix_rotation i1 n n rot = matrix_rotation i2 n n rot → i1 = i2)
    (hbound : ∀ i < n * n, matrix_rotation i n n rot < n * n)
    (l : List (Option α)) (hl : l.length = n * n) (i : ℕ) (hi : i < n * n) :
    (patch_pos_update rot n n l).getD (matrix_rotation i n n rot) none
      = l.getD i none := by
  rw [List.getD_eq_getElem?_getD, ppu_get rot n hinj hbound l hl i hi]
  rfl

lemma mr90_inj {n : ℕ} (hn : 0 < n) :
    ∀ i1 < n * n, ∀ i2 < n * n,
      matrix_rotation i1 n n ROT_90 = matrix_rotation i2 n n ROT_90 → i1 = i2 := by
  intro i1 h1 i2 h2 heq
  rw [← mr270_mr90 hn h1, ← mr270_mr90 hn h2, heq]

lemma mr180_inj {n : ℕ} (hn : 0 < n) :
    ∀ i1 < n * n, ∀ i2 < n * n,
      matrix_rotation i1 n n ROT_180 = matrix_rotation i2 n n ROT_180 → i1 = i2 := by
  intro i1 h1 i2 h2 heq
  rw [← mr180_mr180 hn h1, ← mr180_mr180 hn h2, heq]

lemma roundtrip180 {α : Type} (n : ℕ) (hn : 0 < n) (l : List (Option α))
    (hl : l.length = n * n) :
    patch_pos_update ROT_180 n n (patch_pos_update ROT_180 n n l) = l := by
  have hL1 : (patch_pos_update ROT_180 n n l).length = n * n := by
    rw [ppu_length, hl]
  apply List.ext_getElem?
  intro j
  by_cases hj : j < n * n
  · have key : (patch_pos_update ROT_180 n n (patch_pos_update ROT_180 n n l))[
        matrix_rotation (matrix_rotation j n n ROT_180) n n ROT_180]?
        = some (l.getD j none) := by
      rw [ppu_get ROT_180 n (mr180_inj hn) (fun i hi => mr180_lt hn hi) _ hL1 _
        (mr180_lt hn hj)]
      rw [ppu_getD ROT_180 n (mr180_inj hn) (fun i hi => mr180_lt hn hi) l hl j hj]
    rw [mr180_mr180 hn hj] at key
    rw [key, List.getD_eq_getElem?_getD,
      List.getElem?_eq_getElem (show j < l.length by omega)]
    rfl
  · rw [List.getElem?_eq_none, List.getElem?_eq_none]
    · omega
    · rw [ppu_length, hL1]; omega

lemma roundtrip90 {α : Type} (n : ℕ) (hn : 0 < n) (l : List (Option α))
    (hl : l.length = n * n) :
    patch_pos_update ROT_90 n n (patch_pos_update ROT_90 n n
      (patch_pos_update ROT_90 n n (patch_pos_update ROT_90 n n l))) = l := by
  have hb : ∀ i < n * n, matrix_rotation i n n ROT_90 < n * n :=
    fun i hi => mr90_lt hn hi
  have hL1 : (patch_pos_update ROT_90 n n l).length = n * n := by
    rw [ppu_length, hl]
  have hL2 : (patch_pos_update ROT_90 n n (patch_pos_update ROT_90 n n l)).length
      = n * n := by rw [ppu_length, hL1]
  have hL3 : (patch_pos_update ROT_90 n n (patch_pos_update ROT_90 n n
      (patch_pos_update ROT_90 n n l))).length = n * n := by rw [ppu_length, hL2]
  apply List.ext_getElem?
  intro j
  by_cases hj : j < n * n
  · have key := ppu_get ROT_90 n (mr90_inj hn) hb _ hL3
      (matrix_rotation (matrix_rotation (matrix_rotation j n n ROT_90) n n ROT_90)
        n n ROT_90)
      (hb _ (hb _ (hb j hj)))
    rw [ppu_getD ROT_90 n (mr90_inj hn) hb _ hL2
      (matrix_rotation (matrix_rotation j n n ROT_90) n n ROT_90)
      (hb _ (hb j hj))] at key
    rw [ppu_getD ROT_90 n (mr90_inj hn) hb _ hL1
      (matrix_rotation j n n ROT_90) (hb j hj)] at key
    rw [ppu_getD ROT_90 n (mr90_inj hn) hb l hl j hj] at key
    rw [mr90_mr90 hn hj] at key
    rw [mr90_mr90 hn (mr180_lt hn hj)] at key
    rw [mr180_mr180 hn hj] at key
    rw [key, List.getD_eq_getElem?_getD,
      List.getElem?_eq_getElem (show j < l.length by omega)]
    rfl
  · rw [List.getElem?_eq_none, List.getElem?_eq_none]
    · omega
    · rw [ppu_length, hL3]; omega


/-- C10. For every n x n grid of patches (n >= 1), applying
`patch_pos_update` with `ROT_90` four times in succession, or with
`ROT_180` twice in succession, returns every patch to its original
index: the composite permutation is the identity. -/
theorem c10_grid_rotation_round_trip (n : ℕ) (α : Type) (l : List α)
    (hn : 1 ≤ n) (hl : l.length = n * n) :
    patch_pos_update ROT_90 n n (patch_pos_update ROT_90 n n
      (patch_pos_update ROT_90 n n (patch_pos_update ROT_90 n n (l.map some))))
      = l.map some ∧
    patch_pos_update ROT_180 n n (patch_pos_update ROT_180 n n (l.map some))
      = l.map some := by
  have hlen : (l.map some).length = n * n := by rw [List.length_map, hl]
  exact ⟨roundtrip90 n hn (l.map some) hlen, roundtrip180 n hn (l.map some) hlen⟩

/-- Witness for C10: the round trip evaluated on the labelled 2 x 2 grid. -/
theorem c10_grid_rotation_round_trip_witness :
    patch_pos_update ROT_90 2 2 (patch_pos_update ROT_90 2 2
      (patch_pos_update ROT_90 2 2 (patch_pos_update ROT_90 2 2
        ([0, 1, 2, 3].map some)))) = [0, 1, 2, 3].map some ∧
    patch_pos_update ROT_180 2 2 (patch_pos_update ROT_180 2 2
      ([(0 : ℕ), 1, 2, 3].map some)) = [0, 1, 2, 3].map some :=
  c10_grid_rotation_round_trip 2 ℕ [0, 1, 2, 3] (by decide) (by decide)

/-! ## Data model of the sweep engine (`array_chamber_test`) -/

/-- Python runtime errors raised by the embedded code paths. -/
inductive PyError where
  | attributeError (obj attr : String)
  | keyError (key : String)
  | typeError (func kwarg : String)
  deriving DecidableEq

/-- Hardware command strings of `system_messages.py`, modelled
symbolically: the catalog templates are per-deployment placeholders with
named parameters, so a command is its kind together with the arguments
the code feeds into `str.format`. -/
inductive Cmd where
  | powerOn
  | powerOff
  | bandConfig (channel band_code : ℤ)
  | channelConfig (channel freq_khz if_freq_khz : ℤ)
  | bplAtten (channel : ℤ) (array : ℕ) (atten_code : ℤ)
  | ifAtten (channel atten_code : ℤ)
  | arraySteer (phased_array : String) (phi theta gain : ℚ) (freq_hz : ℤ)
      (pol : ℚ) (enable : ℤ)
  | rfEnable (phased_array : String) (enable : ℤ)
  | pose (roll pitch yaw x y : ℚ)
  | pointingGen
  | modemIf (freq_hz enable : ℤ)
  | beamInfo (az el : ℚ) (freq_hz : ℤ) (pol : ℚ) (enable : ℤ)
  deriving DecidableEq

/-- The positioner window dictionary built by
`ChamberController._calculate_sweep_angles`. -/
structure SweepAngles where
  az_start : ℚ
  az_finish : ℚ
  el_start : ℚ
  el_finish : ℚ
  pol_start : ℚ
  pol_finish : ℚ
  horn_start : ℚ
  horn_finish : ℚ
  deriving DecidableEq

/-- Observable calls on the two collaborators: `send_commands` on the
serial transport and `run_sweep_test_swt` on the measurement runner. -/
inductive Event where
  | sendCommands (cmds : List Cmd)
  | measure (sweep_name : String) (angles_list : SweepAngles)
      (save_path : String) (sPar : Bool)
  deriving DecidableEq

/-- Name of the measurement invocation carried by an event, if any. -/
def Event.measureName? : Event → Option String
  | .measure nm _ _ _ => some nm
  | _ => none

/-- The module-level configuration constants of `config.py`, gathered in
one record so the embedded functions can be quantified over them. -/
structure SweepConfig where
  ARRAY_INTERFACE : String
  SYSTEM_CONFIGURATION : String
  SERIAL_PORT : String
  SERIAL_BAUD : ℕ
  PLOT_SAVE_PATH : String
  MODEM_FREQ : ℤ
  KU_FREQ_RANGE : List ℤ
  THETA_RANGE : List ℚ
  PHI_RANGE : List ℚ
  SWEEP_BOTH_DIRECTIONS : Bool
  ELEVATION_PHI_ADJUSTMENT : Bool
  PHI_RANGE_RANDOM : Bool
  THETA_RANGE_RANDOM : Bool
  TURN_TABLE_ELV_LIMIT : ℚ
  EL_START : ℚ
  EL_FINISH : ℚ
  POL_START : ℚ
  POL_FINISH : ℚ
  AZ_START : ℚ
  AZ_FINISH : ℚ
  HORN_START : ℚ
  HORN_FINISH : ℚ

/-- Python `range(start, stop, step)` as a list, for a positive step (the
only shape the configuration uses); `np.arange` on integer arguments
produces the same sequence. -/
def pyRange (start stop step : ℤ) : List ℤ :=
  (List.range ((stop - start + step - 1) / step).toNat).map
    (fun k => start + step * (k : ℤ))

/-- The concrete values assigned in `config.py`:
`THETA_RANGE = np.arange(0, 35, 5)`, `PHI_RANGE = range(0, 181, 180)`,
all flags `False`, `AZ_START = -35`, `AZ_FINISH = 35`, and so on. -/
def defaultConfig : SweepConfig where
  ARRAY_INTERFACE := ""
  SYSTEM_CONFIGURATION := ""
  SERIAL_PORT := "COM6"
  SERIAL_BAUD := 115200
  PLOT_SAVE_PATH := "C:\\tests"
  MODEM_FREQ := 1500000000
  KU_FREQ_RANGE := [11600000000]
  THETA_RANGE := (pyRange 0 35 5).map (fun z => (z : ℚ))
  PHI_RANGE := (pyRange 0 181 180).map (fun z => (z : ℚ))
  SWEEP_BOTH_DIRECTIONS := false
  ELEVATION_PHI_ADJUSTMENT := false
  PHI_RANGE_RANDOM := false
  THETA_RANGE_RANDOM := false
  TURN_TABLE_ELV_LIMIT := 20
  EL_START := 0
  EL_FINISH := 0
  POL_START := 0
  POL_FINISH := 0
  AZ_START := -35
  AZ_FINISH := 35
  HORN_START := 90
  HORN_FINISH := 90

/-- Derived constant `POL_ANGLE = 0 if ARRAY_INTERFACE == "" else 90`
from `config.py`. -/
def POL_ANGLE (cfg : SweepConfig) : ℚ :=
  if cfg.ARRAY_INTERFACE = "" then 0 else 90

/-! ## String rendering used by the sweep-name generator -/

/-- Decimal digits of a fractional part `num/den` (with `num < den`),
produced by repeated multiplication by 10; the fuel bounds the number of
digits and is never exhausted at the values this development evaluates. -/
def fracDigits : ℕ → ℕ → ℕ → String
  | 0, _, _ => ""
  | _ + 1, 0, _ => ""
  | fuel + 1, num, den =>
    toString (num * 10 / den) ++ fracDigits fuel (num * 10 % den) den

/-- Python `str` applied to a float whose exact value is the rational
`q`: sign, integer part, `.`, then the fractional digits (`.0` when the
value is integral). At every value this development evaluates the float
is exact and CPython's shortest-repr rendering agrees with the exact
decimal expansion. -/
def pyFloatStr (q : ℚ) : String :=
  (if q < 0 then "-" else "") ++ toString (q.num.natAbs / q.den) ++ "." ++
    (if q.num.natAbs % q.den = 0 then "0"
     else fracDigits 40 (q.num.natAbs % q.den) q.den)

/-- Python `str` applied to an angle value: the configured and randomly
drawn angles are integers (from `range`, `np.arange` or `randint`), which
render without a decimal point; a non-integral rational renders as its
decimal expansion. -/
def pyNumStr (q : ℚ) : String :=
  if q.den = 1 then (if q < 0 then "-" else "") ++ toString q.num.natAbs
  else pyFloatStr q

/-- Python `s.replace('.', '_')`: every `.` character becomes `_`. -/
def underscoreDots (s : String) : String :=
  String.mk (s.data.map (fun c => if c = '.' then '_' else c))

/-! ## SystemMessages (`system_messages.py`) -/

/-- Embedding of `SystemMessages.BAND_CODES`, the band-code map: the
shipped file leaves it as the empty dict `{}`, so every lookup fails
(Python raises `KeyError`). -/
def BAND_CODES : String → Option ℤ := fun _ => none

/-- Embedding of `SystemMessages.get_pose_commands(pitch)`:
`POSE_CMD.format(roll=0, pitch=pitch, yaw=0, x=0, y=0)` followed by
`POINTING_GEN_CMD`. -/
def get_pose_commands (pitch : ℚ) : List Cmd :=
  [Cmd.pose 0 pitch 0 0 0, Cmd.pointingGen]

/-- Embedding of `SystemMessages.get_pointing_commands`: modem-IF, beam
info, then the pointing trigger; `enable` is formatted as `int(enable)`. -/
def get_pointing_commands (freq_hz : ℤ) (az el pol : ℚ) (enable : Bool) :
    List Cmd :=
  [Cmd.modemIf freq_hz (if enable then 1 else 0),
   Cmd.beamInfo az el freq_hz pol (if enable then 1 else 0),
   Cmd.pointingGen]

/-- Embedding of `SystemMessages.get_phased_array_commands`: a
beam-steering command followed by an RF-enable command for one
sub-array. -/
def get_phased_array_commands (phased_array : String) (phi theta gain : ℚ)
    (freq_hz : ℤ) (pol : ℚ) (enable : Bool) : List Cmd :=
  [Cmd.arraySteer phased_array phi theta gain freq_hz pol
     (if enable then 1 else 0),
   Cmd.rfEnable phased_array (if enable then 1 else 0)]

/-! ## ArrayController (`array_controller.py`) -/

/-- Embedding of `ArrayController._get_default_attenuation_codes`: four
array codes `to_attenuation_code(0.0, 1.6)` and one SM code
`to_attenuation_code(0.0, 0.0)`. -/
def _get_default_attenuation_codes : List ℤ × List ℤ :=
  ((List.range 4).map (fun _ => to_attenuation_code 0 1.6),
   [to_attenuation_code 0 0])

/-- Embedding of `ArrayController._get_rx_atten_commands`: band config
(whose band code is `BAND_CODES['L']`, a lookup that raises `KeyError`
on the shipped empty map), channel config, four BPL attenuation commands
and one IF attenuation command. -/
def _get_rx_atten_commands (cfg : SweepConfig) (f_hz : ℤ)
    (atten : List ℤ × List ℤ) : Except PyError (List Cmd) :=
  match BAND_CODES "L" with
  | none => Except.error (PyError.keyError "L")
  | some band_code =>
    let f_khz := f_hz.fdiv 1000
    let f_if_khz := cfg.MODEM_FREQ.fdiv 1000
    Except.ok
      ([Cmd.bandConfig 0 band_code, Cmd.channelConfig 0 f_khz f_if_khz] ++
       (List.range 4).map (fun i => Cmd.bplAtten 0 i (atten.1.getD i 0)) ++
       [Cmd.ifAtten 0 (atten.2.getD 0 0)])

/-- Embedding of `ArrayController.setup_array`: returns immediately when
`ARRAY_INTERFACE != ""`; otherwise builds and sends the RX attenuation
commands (which raises `KeyError` before anything is sent, because
`BAND_CODES` is empty) and then the pointing commands. -/
def setup_array (cfg : SweepConfig) (ku_freq : ℤ) (azimuth elevation : ℚ) :
    Except PyError (List Event) :=
  if cfg.ARRAY_INTERFACE ≠ "" then Except.ok []
  else
    match _get_rx_atten_commands cfg ku_freq _get_default_attenuation_codes with
    | Except.error e => Except.error e
    | Except.ok cmds =>
      Except.ok [Event.sendCommands cmds,
        Event.sendCommands
          (get_pointing_commands ku_freq azimuth elevation (POL_ANGLE cfg) true)]

/-- Embedding of `ArrayController._control_pose`:
`pitch = theta_angle if phi_angle > 90 else 360 - theta_angle`, then one
`send_commands` call with the pose commands. -/
def _control_pose (phi_angle theta_angle : ℚ) : List Event :=
  let pitch := if phi_angle > 90 then theta_angle else 360 - theta_angle
  [Event.sendCommands (get_pose_commands pitch)]

/-- Embedding of `ArrayController.control_array`. When
`ARRAY_INTERFACE == ""` the method builds the full band, channel,
attenuation and steering command list; building its very first command
evaluates `BAND_CODES['L']`, which raises `KeyError` on the shipped
empty map. Were the map populated, the per-subarray loop would still
raise `TypeError`, because it calls `get_phased_array_commands` with
keyword `array` while the parameter is named `phased_array`. Either way
nothing is dispatched on that branch. For every other interface value
the method delegates to `_control_pose`. -/
def control_array (cfg : SweepConfig) (ku_freq : ℤ)
    (phi_angle theta_angle : ℚ) : Except PyError (List Event) :=
  if cfg.ARRAY_INTERFACE = "" then
    match BAND_CODES "L" with
    | none => Except.error (PyError.keyError "L")
    | some _ =>
      Except.error (PyError.typeError "get_phased_array_commands" "array")
  else Except.ok (_control_pose phi_angle theta_angle)

/-- Python attribute lookup on an `ArrayController` instance, restricted
to the per-point control methods: the class defines `control_array` and
`_control_pose` (besides `power_cycle`, `setup_array` and the attenuation
helpers, which have other signatures); any other name yields `none`,
which the caller turns into `AttributeError`. In particular the name
`control_pose` — without the leading underscore — is not defined. -/
def arrayControllerPointMethod (cfg : SweepConfig) :
    String → Option (ℤ → ℚ → ℚ → Except PyError (List Event))
  | "control_array" => some (fun ku phi theta => control_array cfg ku phi theta)
  | "_control_pose" =>
    some (fun _ phi theta => Except.ok (_control_pose phi theta))
  | _ => none

/-! ## ChamberController (`chamber_controller.py`)

The `random.randint` source is injected as
`randint : ℤ → ℤ → ℕ → ℤ` (lower bound, upper bound, draw counter), and
`datetime.now().strftime(...)` as the string `now`. The floating-point
library routines `math.sin` and `math.radians` are injected as abstract
functions `math_sin, math_radians : ℚ → ℚ` (a CPython float is an exact
rational, so the routines are rational-valued). -/

/-- Embedding of `ChamberController._select_phi_angles`: ten draws of
`random.randint(0, 360)` when `PHI_RANGE_RANDOM`, else
`list(PHI_RANGE)`. -/
def _select_phi_angles (cfg : SweepConfig) (randint : ℤ → ℤ → ℕ → ℤ) :
    List ℚ :=
  if cfg.PHI_RANGE_RANDOM then
    (List.range 10).map (fun k => ((randint 0 360 k : ℤ) : ℚ))
  else cfg.PHI_RANGE

/-- Embedding of `ChamberController._select_theta_angles`: ten draws of
`random.randint(5, 50)` when `THETA_RANGE_RANDOM`, else
`list(THETA_RANGE)`. -/
def _select_theta_angles (cfg : SweepConfig) (randint : ℤ → ℤ → ℕ → ℤ) :
    List ℚ :=
  if cfg.THETA_RANGE_RANDOM then
    (List.range 10).map (fun k => ((randint 5 50 k : ℤ) : ℚ))
  else cfg.THETA_RANGE

/-- Embedding of `ChamberController._calculate_sweep_angles`: azimuth
bounds negated on the return pass when `SWEEP_BOTH_DIRECTIONS` and not
`direction_forward`; elevation overridden with
`theta * sin(radians(phi))` clamped to the turntable limit when
`ELEVATION_PHI_ADJUSTMENT`; polarization and horn bounds pass through. -/
def _calculate_sweep_angles (cfg : SweepConfig)
    (math_sin math_radians : ℚ → ℚ) (direction_forward : Bool)
    (phi_angle theta_angle : ℚ) : SweepAngles :=
  let az_start : ℚ :=
    if cfg.SWEEP_BOTH_DIRECTIONS && !direction_forward then -cfg.AZ_START
    else cfg.AZ_START
  let az_finish : ℚ :=
    if cfg.SWEEP_BOTH_DIRECTIONS && !direction_forward then -cfg.AZ_FINISH
    else cfg.AZ_FINISH
  let el_pair : ℚ × ℚ :=
    if cfg.ELEVATION_PHI_ADJUSTMENT then
      let calc_elevation := theta_angle * math_sin (math_radians phi_angle)
      let clamped := min (max calc_elevation (-cfg.TURN_TABLE_ELV_LIMIT))
        cfg.TURN_TABLE_ELV_LIMIT
      (clamped, clamped)
    else (cfg.EL_START, cfg.EL_FINISH)
  { az_start := az_start
    az_finish := az_finish
    el_start := el_pair.1
    el_finish := el_pair.2
    pol_start := cfg.POL_START
    pol_finish := cfg.POL_FINISH
    horn_start := cfg.HORN_START
    horn_finish := cfg.HORN_FINISH }

/-- Embedding of `ChamberController._generate_sweep_name`: timestamp,
interface and system identifiers, then the decimal-formatted frequency
(Python's true division `ku_freq / 1000000000` of ints is the exact
rational `Rat.divInt ku_freq 1000000000`) and angle values, each with
`.` replaced by `_`. -/
def _generate_sweep_name (cfg : SweepConfig) (now : String)
    (ku_freq l_band_freq : ℤ) (phi_angle theta_angle : ℚ) : String :=
  let ku_freq_string := underscoreDots (pyFloatStr (Rat.divInt ku_freq 1000000000))
  let l_band_freq_string :=
    underscoreDots (pyFloatStr (Rat.divInt l_band_freq 1000000000))
  let phi_angle_string := underscoreDots (pyNumStr phi_angle)
  let theta_angle_string := underscoreDots (pyNumStr theta_angle)
  now ++ ("_" ++ (cfg.ARRAY_INTERFACE ++ ("_" ++ (cfg.SYSTEM_CONFIGURATION ++
    ("_Ku_Freq_" ++ (ku_freq_string ++ ("GHz_L_Freq_" ++ (l_band_freq_string ++
    ("GHz_Phi_" ++ (phi_angle_string ++ ("_Theta_" ++ theta_angle_string)))))))))))

/-- Embedding of `ChamberController._run_chamber_sweep`: one invocation
of the measurement collaborator `run_sweep_test_swt` with the generated
name, the window, `PLOT_SAVE_PATH` and `sPar=False`. -/
def _run_chamber_sweep (cfg : SweepConfig) (now : String)
    (ku_freq l_band_freq : ℤ) (theta_angle phi_angle : ℚ)
    (sweep_angles : SweepAngles) : List Event :=
  [Event.measure
    (_generate_sweep_name cfg now ku_freq l_band_freq phi_angle theta_angle)
    sweep_angles cfg.PLOT_SAVE_PATH false]

/-- Embedding of `ChamberController.perform_sweep`: compute the window,
run the chamber sweep, and return
`not direction_forward if SWEEP_BOTH_DIRECTIONS else direction_forward`. -/
def perform_sweep (cfg : SweepConfig) (math_sin math_radians : ℚ → ℚ)
    (now : String) (direction_forward : Bool) (ku_freq l_band_freq : ℤ)
    (phi_angle theta_angle : ℚ) : List Event × Bool :=
  let sweep_angles := _calculate_sweep_angles cfg math_sin math_radians
    direction_forward phi_angle theta_angle
  (_run_chamber_sweep cfg now ku_freq l_band_freq theta_angle phi_angle
     sweep_angles,
   if cfg.SWEEP_BOTH_DIRECTIONS then !direction_forward else direction_forward)

/-- One iteration of the inner loop of
`ChamberController.run_sweep_sequence`: dispatch `control_array` when
`ARRAY_INTERFACE == "app_cli_message_forewarding"`, otherwise look up the
attribute `control_pose` (which `ArrayController` does not define, so the
lookup raises `AttributeError`); then perform the sweep. The first
component collects the collaborator calls that actually happened. -/
def runSweepPoint (cfg : SweepConfig) (math_sin math_radians : ℚ → ℚ)
    (now : String) (ku_freq l_band_freq : ℤ) (direction_forward : Bool)
    (phi_angle theta_angle : ℚ) : List Event × Except PyError Bool :=
  let target := if cfg.ARRAY_INTERFACE = "app_cli_message_forewarding"
    then "control_array" else "control_pose"
  match arrayControllerPointMethod cfg target with
  | none => ([], Except.error (PyError.attributeError "ArrayController" target))
  | some f =>
    match f ku_freq phi_angle theta_angle with
    | Except.error e => ([], Except.error e)
    | Except.ok ev =>
      let r := perform_sweep cfg math_sin math_radians now direction_forward
        ku_freq l_band_freq phi_angle theta_angle
      (ev ++ r.1, Except.ok r.2)

/-- Inner theta loop of `ChamberController.run_sweep_sequence`; an
exception aborts the remaining points, keeping the events that already
happened. -/
def sweepThetas (cfg : SweepConfig) (math_sin math_radians : ℚ → ℚ)
    (now : String) (ku_freq l_band_freq : ℤ) (phi_angle : ℚ) :
    List ℚ → Bool → List Event × Except PyError Bool
  | [], dir => ([], Except.ok dir)
  | theta :: rest, dir =>
    match runSweepPoint cfg math_sin math_radians now ku_freq l_band_freq dir
        phi_angle theta with
    | (ev, Except.error e) => (ev, Except.error e)
    | (ev, Except.ok dir') =>
      let r := sweepThetas cfg math_sin math_radians now ku_freq l_band_freq
        phi_angle rest dir'
      (ev ++ r.1, r.2)

/-- Outer phi loop of `ChamberController.run_sweep_sequence`; the theta
list is re-selected at the start of each phi iteration (`idx` counts the
iterations so each selection can draw fresh random values). -/
def sweepPhis (cfg : SweepConfig) (math_sin math_radians : ℚ → ℚ)
    (randintTheta : ℕ → ℤ → ℤ → ℕ → ℤ)
    (now : String) (ku_freq l_band_freq : ℤ) :
    List ℚ → ℕ → Bool → List Event × Except PyError Bool
  | [], _, dir => ([], Except.ok dir)
  | phi :: rest, idx, dir =>
    let thetas := _select_theta_angles cfg (randintTheta idx)
    match sweepThetas cfg math_sin math_radians now ku_freq l_band_freq phi
        thetas dir with
    | (ev, Except.error e) => (ev, Except.error e)
    | (ev, Except.ok dir') =>
      let r := sweepPhis cfg math_sin math_radians randintTheta now ku_freq
        l_band_freq rest (idx + 1) dir'
      (ev ++ r.1, r.2)

/-- Embedding of `ChamberController.run_sweep_sequence`: the one-time
`setup_array` call in PointingGenerator mode, then the phi/theta loops.
The result pairs the trace of collaborator calls with either the final
direction flag or the Python exception that ended the run. -/
def run_sweep_sequence (cfg : SweepConfig) (math_sin math_radians : ℚ → ℚ)
    (randintPhi : ℤ → ℤ → ℕ → ℤ) (randintTheta : ℕ → ℤ → ℤ → ℕ → ℤ)
    (now : String) (ku_freq l_band_freq : ℤ) (dir0 : Bool) :
    List Event × Except PyError Bool :=
  match (if cfg.ARRAY_INTERFACE = "app_cli_pointing_generator"
         then setup_array cfg ku_freq 0 90 else Except.ok []) with
  | Except.error e => ([], Except.error e)
  | Except.ok ev0 =>
    let phis := _select_phi_angles cfg randintPhi
    let r := sweepPhis cfg math_sin math_radians randintTheta now ku_freq
      l_band_freq phis 0 dir0
    (ev0 ++ r.1, r.2)

/-- The configuration with the MessageForwarding interface mode selected
(all other constants as in `config.py`). -/
def fwdConfig : SweepConfig :=
  { defaultConfig with ARRAY_INTERFACE := "app_cli_message_forewarding" }

/-! ## Claims about the angle solver, direction state and naming -/

/-- C5. Whenever `ELEVATION_PHI_ADJUSTMENT` is enabled, for every
direction flag, phi, theta and configuration, the window's `el_start`
and `el_finish` are both `theta * sin(radians(phi))` clamped to
`[-TURN_TABLE_ELV_LIMIT, TURN_TABLE_ELV_LIMIT]` — regardless of the
configured `EL_START`/`EL_FINISH`, which are ignored in this mode — and
in particular `el_start = el_finish` always holds. -/
theorem c5_elevation_phi_adjustment (cfg : SweepConfig)
    (math_sin math_radians : ℚ → ℚ) (direction_forward : Bool)
    (phi_angle theta_angle : ℚ)
    (h : cfg.ELEVATION_PHI_ADJUSTMENT = true) :
    (_calculate_sweep_angles cfg math_sin math_radians direction_forward
        phi_angle theta_angle).el_start =
      min (max (theta_angle * math_sin (math_radians phi_angle))
        (-cfg.TURN_TABLE_ELV_LIMIT)) cfg.TURN_TABLE_ELV_LIMIT ∧
    (_calculate_sweep_angles cfg math_sin math_radians direction_forward
        phi_angle theta_angle).el_finish =
      min (max (theta_angle * math_sin (math_radians phi_angle))
        (-cfg.TURN_TABLE_ELV_LIMIT)) cfg.TURN_TABLE_ELV_LIMIT ∧
    (_calculate_sweep_angles cfg math_sin math_radians direction_forward
        phi_angle theta_angle).el_start =
      (_calculate_sweep_angles cfg math_sin math_radians direction_forward
        phi_angle theta_angle).el_finish := by
  refine ⟨?_, ?_, ?_⟩ <;> simp [_calculate_sweep_angles, h]

/-- Witness for C5, at the documented sample points: with the float sine
routine returning `1` (the exact CPython value of
`math.sin(math.radians(90))`), `theta = 20`, `phi = 90` and limit `20`
give elevation `20` unclamped, and `theta = 50` gives `20` clamped. -/
theorem c5_elevation_phi_adjustment_witness :
    (_calculate_sweep_angles { defaultConfig with ELEVATION_PHI_ADJUSTMENT := true }
        (fun _ => 1) (fun x => x) true 90 20).el_start = 20 ∧
    (_calculate_sweep_angles { defaultConfig with ELEVATION_PHI_ADJUSTMENT := true }
        (fun _ => 1) (fun x => x) true 90 20).el_finish = 20 ∧
    (_calculate_sweep_angles { defaultConfig with ELEVATION_PHI_ADJUSTMENT := true }
        (fun _ => 1) (fun x => x) true 90 50).el_start = 20 := by
  refine ⟨?_, ?_, ?_⟩
  · rw [(c5_elevation_phi_adjustment _ _ _ _ _ _ rfl).1]
    norm_num [defaultConfig, min_def, max_def]
  · rw [(c5_elevation_phi_adjustment _ _ _ _ _ _ rfl).2.1]
    norm_num [defaultConfig, min_def, max_def]
  · rw [(c5_elevation_phi_adjustment _ _ _ _ _ _ rfl).1]
    norm_num [defaultConfig, min_def, max_def]

/-- C6. When `SWEEP_BOTH_DIRECTIONS` is enabled and the direction flag is
false (with elevation-phi-adjustment disabled), the window negates both
azimuth bounds exactly and leaves the elevation, polarization and horn
fields at their configured values, for every phi and theta. -/
theorem c6_reverse_pass_negates_azimuth (cfg : SweepConfig)
    (math_sin math_radians : ℚ → ℚ) (phi_angle theta_angle : ℚ)
    (hsbd : cfg.SWEEP_BOTH_DIRECTIONS = true)
    (hepa : cfg.ELEVATION_PHI_ADJUSTMENT = false) :
    _calculate_sweep_angles cfg math_sin math_radians false phi_angle
        theta_angle =
      { az_start := -cfg.AZ_START
        az_finish := -cfg.AZ_FINISH
        el_start := cfg.EL_START
        el_finish := cfg.EL_FINISH
        pol_start := cfg.POL_START
        pol_finish := cfg.POL_FINISH
        horn_start := cfg.HORN_START
        horn_finish := cfg.HORN_FINISH } := by
  simp [_calculate_sweep_angles, hsbd, hepa]

/-- Witness for C6: with the repository configuration
(`AZ_START = -35`, `AZ_FINISH = 35`) and both-directions enabled, the
return pass gets `az_start = 35` and `az_finish = -35`. -/
theorem c6_reverse_pass_negates_azimuth_witness :
    (_calculate_sweep_angles { defaultConfig with SWEEP_BOTH_DIRECTIONS := true }
        (fun _ => 0) (fun x => x) false 0 0).az_start = 35 ∧
    (_calculate_sweep_angles { defaultConfig with SWEEP_BOTH_DIRECTIONS := true }
        (fun _ => 0) (fun x => x) false 0 0).az_finish = -35 := by
  rw [c6_reverse_pass_negates_azimuth _ _ _ _ _ rfl rfl]
  norm_num [defaultConfig]

/-- C7. The run direction flag is updated unconditionally after every
completed point — the update does not inspect anything the dispatch or
measurement produced: when `SWEEP_BOTH_DIRECTIONS` is true the flag is
negated after every point (and over any sequence of points the final
flag is the initial one flipped once per point), and when it is false
the flag never changes. -/
theorem c7_direction_flag_alternation :
    (∀ (cfg : SweepConfig) (ms mr : ℚ → ℚ) (now : String) (dir : Bool)
       (ku l : ℤ) (phi theta : ℚ), cfg.SWEEP_BOTH_DIRECTIONS = true →
       (perform_sweep cfg ms mr now dir ku l phi theta).2 = !dir) ∧
    (∀ (cfg : SweepConfig) (ms mr : ℚ → ℚ) (now : String) (dir : Bool)
       (ku l : ℤ) (phi theta : ℚ), cfg.SWEEP_BOTH_DIRECTIONS = false →
       (perform_sweep cfg ms mr now dir ku l phi theta).2 = dir) ∧
    (∀ (cfg : SweepConfig) (ms mr : ℚ → ℚ) (now : String) (ku l : ℤ)
       (dir0 : Bool) (pts : List (ℚ × ℚ)),
       (cfg.SWEEP_BOTH_DIRECTIONS = true →
         pts.foldl (fun d p => (perform_sweep cfg ms mr now d ku l p.1 p.2).2)
           dir0 = if pts.length % 2 = 1 then !dir0 else dir0) ∧
       (cfg.SWEEP_BOTH_DIRECTIONS = false →
         pts.foldl (fun d p => (perform_sweep cfg ms mr now d ku l p.1 p.2).2)
           dir0 = dir0)) := by
  have hstep : ∀ (cfg : SweepConfig) (ms mr : ℚ → ℚ) (now : String)
      (dir : Bool) (ku l : ℤ) (phi theta : ℚ),
      (perform_sweep cfg ms mr now dir ku l phi theta).2 =
        if cfg.SWEEP_BOTH_DIRECTIONS then !dir else dir :=
    fun _ _ _ _ _ _ _ _ _ => rfl
  refine ⟨?_, ?_, ?_⟩
  · intro cfg ms mr now dir ku l phi theta h
    rw [hstep, h]
    rfl
  · intro cfg ms mr now dir ku l phi theta h
    rw [hstep, h]
    rfl
  · intro cfg ms mr now ku l dir0 pts
    induction pts generalizing dir0 with
    | nil => exact ⟨fun _ => rfl, fun _ => rfl⟩
    | cons p rest ih =>
      constructor
      · intro h
        rw [List.foldl_cons, show (perform_sweep cfg ms mr now dir0 ku l
            p.1 p.2).2 = !dir0 by rw [hstep, h]; rfl,
          (ih (!dir0)).1 h, List.length_cons]
        by_cases hp : rest.length % 2 = 1
        · rw [if_pos hp, if_neg (by omega), Bool.not_not]
        · rw [if_neg hp, if_pos (by omega)]
      · intro h
        rw [List.foldl_cons, show (perform_sweep cfg ms mr now dir0 ku l
            p.1 p.2).2 = dir0 by rw [hstep, h]; rfl, (ih dir0).2 h]

/-- Witness for C7: one point flips the flag under the both-directions
configuration and leaves it unchanged under the repository default. -/
theorem c7_direction_flag_alternation_witness :
    (perform_sweep { defaultConfig with SWEEP_BOTH_DIRECTIONS := true }
        (fun _ => 0) (fun x => x) "t" true 0 0 0 0).2 = false ∧
    (perform_sweep defaultConfig (fun _ => 0) (fun x => x) "t" true 0 0 0
        0).2 = true := by
  constructor
  · have h := c7_direction_flag_alternation.1
      { defaultConfig with SWEEP_BOTH_DIRECTIONS := true }
      (fun _ => 0) (fun x => x) "t" true 0 0 0 0 rfl
    simpa using h
  · exact c7_direction_flag_alternation.2.1 defaultConfig
      (fun _ => 0) (fun x => x) "t" true 0 0 0 0 rfl

/-- C8. The sweep-name generator is deterministic given identical inputs:
two invocations that agree on the timestamp, the interface and system
identifiers, the ku and L-band frequencies, phi and theta produce the
same string (whatever the other configuration fields are); the name is
built by concatenating exactly those values, with every decimal point of
the frequency and angle fields replaced by an underscore, so those
fields contain no `.` character. -/
theorem c8_sweep_name_deterministic :
    (∀ (cfg1 cfg2 : SweepConfig) (now1 now2 : String) (ku1 ku2 l1 l2 : ℤ)
       (phi1 phi2 theta1 theta2 : ℚ),
       now1 = now2 → cfg1.ARRAY_INTERFACE = cfg2.ARRAY_INTERFACE →
       cfg1.SYSTEM_CONFIGURATION = cfg2.SYSTEM_CONFIGURATION →
       ku1 = ku2 → l1 = l2 → phi1 = phi2 → theta1 = theta2 →
       _generate_sweep_name cfg1 now1 ku1 l1 phi1 theta1 =
         _generate_sweep_name cfg2 now2 ku2 l2 phi2 theta2) ∧
    (∀ (cfg : SweepConfig) (now : String) (ku l : ℤ) (phi theta : ℚ),
       _generate_sweep_name cfg now ku l phi theta =
         now ++ ("_" ++ (cfg.ARRAY_INTERFACE ++ ("_" ++
           (cfg.SYSTEM_CONFIGURATION ++ ("_Ku_Freq_" ++
           (underscoreDots (pyFloatStr (Rat.divInt ku 1000000000)) ++
           ("GHz_L_Freq_" ++
           (underscoreDots (pyFloatStr (Rat.divInt l 1000000000)) ++
           ("GHz_Phi_" ++ (underscoreDots (pyNumStr phi) ++
           ("_Theta_" ++ underscoreDots (pyNumStr theta))))))))))))) ∧
    (∀ s : String, ('.' : Char) ∉ (underscoreDots s).data) := by
  refine ⟨?_, ?_, ?_⟩
  · intro cfg1 cfg2 now1 now2 ku1 ku2 l1 l2 phi1 phi2 theta1 theta2
      hnow hai hsc hku hl hphi htheta
    subst hnow hku hl hphi htheta
    unfold _generate_sweep_name
    rw [hai, hsc]
  · intro cfg now ku l phi theta
    rfl
  · intro s h
    have h' : ('.' : Char) ∈ s.data.map (fun c => if c = '.' then '_' else c) := h
    rcases List.mem_map.mp h' with ⟨a, -, heq⟩
    by_cases hc : a = '.'
    · rw [if_pos hc] at heq
      exact absurd heq (by decide)
    · rw [if_neg hc] at heq
      exact hc heq

/-- Witness for C8: two invocations agreeing on every input the name
depends on produce the same name, even though the two configurations
differ in another field. -/
theorem c8_sweep_name_deterministic_witness :
    _generate_sweep_name defaultConfig "2024-10-16_12-00-00" 11600000000
        1500000000 0 5 =
      _generate_sweep_name { defaultConfig with SWEEP_BOTH_DIRECTIONS := true }
        "2024-10-16_12-00-00" 11600000000 1500000000 0 5 :=
  c8_sweep_name_deterministic.1 _ _ _ _ _ _ _ _ _ _ _ _ rfl rfl rfl rfl rfl
    rfl rfl

/-! ## Claims about the sweep sequencing loop -/

/-- C2. For every configuration whose interface mode is not
`app_cli_message_forewarding` — including the default Local mode
(`ARRAY_INTERFACE == ""`) and the PointingGenerator mode — processing
the first sweep point raises `AttributeError`, because
`run_sweep_sequence` invokes `array_ctrl.control_pose` while
`ArrayController` defines only `_control_pose`; consequently no
collaborator call happens at all: no command is dispatched and the
measurement runner is never invoked. -/
theorem c2_missing_control_pose_attribute_error (cfg : SweepConfig)
    (ms mr : ℚ → ℚ) (randintPhi : ℤ → ℤ → ℕ → ℤ)
    (randintTheta : ℕ → ℤ → ℤ → ℕ → ℤ) (now : String) (ku l : ℤ)
    (dir0 : Bool)
    (hmode : cfg.ARRAY_INTERFACE ≠ "app_cli_message_forewarding")
    (hphi : _select_phi_angles cfg randintPhi ≠ [])
    (htheta : _select_theta_angles cfg (randintTheta 0) ≠ []) :
    run_sweep_sequence cfg ms mr randintPhi randintTheta now ku l dir0 =
      ([], Except.error
        (PyError.attributeError "ArrayController" "control_pose")) := by
  have hpoint : ∀ (dir : Bool) (phi theta : ℚ),
      runSweepPoint cfg ms mr now ku l dir phi theta =
        ([], Except.error
          (PyError.attributeError "ArrayController" "control_pose")) := by
    intro dir phi theta
    unfold runSweepPoint
    rw [if_neg hmode]
    rfl
  obtain ⟨θ, trest, hts⟩ := List.exists_cons_of_ne_nil htheta
  obtain ⟨φ, prest, hps⟩ := List.exists_cons_of_ne_nil hphi
  have hthetas : sweepThetas cfg ms mr now ku l φ
      (_select_theta_angles cfg (randintTheta 0)) dir0 =
        ([], Except.error
          (PyError.attributeError "ArrayController" "control_pose")) := by
    rw [hts]
    unfold sweepThetas
    rw [hpoint]
  have hphis : sweepPhis cfg ms mr randintTheta now ku l
      (_select_phi_angles cfg randintPhi) 0 dir0 =
        ([], Except.error
          (PyError.attributeError "ArrayController" "control_pose")) := by
    rw [hps]
    unfold sweepPhis
    simp only [hthetas]
  unfold run_sweep_sequence
  by_cases hpg : cfg.ARRAY_INTERFACE = "app_cli_pointing_generator"
  · rw [if_pos hpg]
    have hsetup : setup_array cfg ku 0 90 = Except.ok [] := by
      unfold setup_array
      rw [if_pos (by rw [hpg]; decide)]
    rw [hsetup]
    simp only [hphis, List.nil_append]
  · rw [if_neg hpg]
    simp only [hphis, List.nil_append]

/-- Witness for C2: the repository default configuration (Local mode,
nonempty phi and theta ranges) aborts with the `AttributeError` before
any collaborator call. -/
theorem c2_missing_control_pose_attribute_error_witness :
    run_sweep_sequence defaultConfig (fun _ => 0) (fun x => x)
        (fun _ _ _ => 0) (fun _ _ _ _ => 0) "t" 11600000000 1500000000
        true =
      ([], Except.error
        (PyError.attributeError "ArrayController" "control_pose")) :=
  c2_missing_control_pose_attribute_error defaultConfig (fun _ => 0)
    (fun x => x) (fun _ _ _ => 0) (fun _ _ _ _ => 0) "t" 11600000000
    1500000000 true (by decide) (by decide) (by decide)

/-- C4 (amended). Whenever the randomized path is enabled for an axis,
the angle selector returns exactly 10 values, and for every random
source satisfying `randint`'s contract (the result of
`random.randint(a, b)` lies in the closed interval `[a, b]`, both
endpoints included) every returned phi value lies in the closed interval
`[0, 360]` — not the half-open `[0, 360)` — and every returned theta
value lies in `[5, 50]`. -/
theorem c4_random_selection_count_and_bounds (cfg : SweepConfig)
    (randint : ℤ → ℤ → ℕ → ℤ)
    (hr : ∀ (lo hi : ℤ) (k : ℕ), lo ≤ hi →
      lo ≤ randint lo hi k ∧ randint lo hi k ≤ hi) :
    (cfg.PHI_RANGE_RANDOM = true →
      (_select_phi_angles cfg randint).length = 10 ∧
      ∀ v ∈ _select_phi_angles cfg randint, 0 ≤ v ∧ v ≤ 360) ∧
    (cfg.THETA_RANGE_RANDOM = true →
      (_select_theta_angles cfg randint).length = 10 ∧
      ∀ v ∈ _select_theta_angles cfg randint, 5 ≤ v ∧ v ≤ 50) := by
  constructor
  · intro h
    refine ⟨by simp [_select_phi_angles, h], ?_⟩
    intro v hv
    simp only [_select_phi_angles, h, if_true, List.mem_map,
      List.mem_range] at hv
    obtain ⟨k, -, rfl⟩ := hv
    have hb := hr 0 360 k (by norm_num)
    constructor
    · exact_mod_cast hb.1
    · exact_mod_cast hb.2
  · intro h
    refine ⟨by simp [_select_theta_angles, h], ?_⟩
    intro v hv
    simp only [_select_theta_angles, h, if_true, List.mem_map,
      List.mem_range] at hv
    obtain ⟨k, -, rfl⟩ := hv
    have hb := hr 5 50 k (by norm_num)
    constructor
    · exact_mod_cast hb.1
    · exact_mod_cast hb.2

/-- Witness for C4: a contract-satisfying source witnesses the
ten-element selections on both axes. -/
theorem c4_random_selection_count_and_bounds_witness :
    (_select_phi_angles { defaultConfig with PHI_RANGE_RANDOM := true }
        (fun lo _ _ => lo)).length = 10 ∧
    (_select_theta_angles { defaultConfig with THETA_RANGE_RANDOM := true }
        (fun lo _ _ => lo)).length = 10 := by
  constructor
  · exact ((c4_random_selection_count_and_bounds
      { defaultConfig with PHI_RANGE_RANDOM := true } (fun lo _ _ => lo)
      (fun lo hi k h => ⟨le_refl lo, h⟩)).1 rfl).1
  · exact ((c4_random_selection_count_and_bounds
      { defaultConfig with THETA_RANGE_RANDOM := true } (fun lo _ _ => lo)
      (fun lo hi k h => ⟨le_refl lo, h⟩)).2 rfl).1

/-- Counterexample for C4 as stated: `random.randint(0, 360)` includes
both endpoints, so a source that always returns the upper bound — which
satisfies `randint`'s contract, third conjunct — makes the selector
return the value 360, and 360 does not lie in the half-open interval
`[0, 360)` demanded by the claim. -/
theorem c4_random_phi_counterexample :
    (360 : ℚ) ∈ _select_phi_angles
        { defaultConfig with PHI_RANGE_RANDOM := true }
        (fun _ hi _ => hi) ∧
    ¬ ((360 : ℚ) < 360) ∧
    (∀ (lo hi : ℤ) (k : ℕ), lo ≤ hi →
      lo ≤ (fun (_ hi : ℤ) (_ : ℕ) => hi) lo hi k ∧
      (fun (_ hi : ℤ) (_ : ℕ) => hi) lo hi k ≤ hi) := by
  refine ⟨by decide, by norm_num, fun lo hi k h => ⟨h, le_refl hi⟩⟩

/-- Kind test used by C1's counterexample: whether a command is one of
the band-configuration, channel-configuration, per-subarray attenuation,
IF-attenuation or beam-steering commands the claim expects to be
forwarded. -/
def Cmd.isArrayConfigCmd : Cmd → Bool
  | .bandConfig _ _ => true
  | .channelConfig _ _ _ => true
  | .bplAtten _ _ _ => true
  | .ifAtten _ _ => true
  | .arraySteer _ _ _ _ _ _ _ => true
  | _ => false

/-- C1 (amended). For every sweep point processed while the interface
mode is MessageForwarding (`ARRAY_INTERFACE == "app_cli_message_forewarding"`),
the command set dispatched for that point consists of exactly the pose
command (with `pitch = theta if phi > 90 else 360 - theta`) followed by
the pointing-trigger command: `control_array` builds the Local-style
band/channel/attenuation/steering set only when `ARRAY_INTERFACE == ""`,
a branch unreachable in MessageForwarding mode, and otherwise delegates
to `_control_pose`. -/
theorem c1_forwarding_dispatches_pose_commands (cfg : SweepConfig)
    (ku_freq : ℤ) (phi_angle theta_angle : ℚ)
    (h : cfg.ARRAY_INTERFACE = "app_cli_message_forewarding") :
    control_array cfg ku_freq phi_angle theta_angle =
      Except.ok [Event.sendCommands
        [Cmd.pose 0 (if phi_angle > 90 then theta_angle else 360 - theta_angle)
           0 0 0,
         Cmd.pointingGen]] := by
  unfold control_array
  rw [if_neg (by rw [h]; decide)]
  rfl

/-- Witness for C1's amended statement at a concrete forwarding-mode
point. -/
theorem c1_forwarding_dispatches_pose_commands_witness :
    control_array fwdConfig 11600000000 0 5 =
      Except.ok [Event.sendCommands
        [Cmd.pose 0 (if (0 : ℚ) > 90 then 5 else 360 - 5) 0 0 0,
         Cmd.pointingGen]] :=
  c1_forwarding_dispatches_pose_commands fwdConfig 11600000000 0 5 rfl

/-- Counterexample for C1 as stated: at the forwarding-mode point
`(ku = 11600000000, phi = 180, theta = 0)` the dispatched command set is
the pose and pointing-trigger pair, none of which is a band, channel,
attenuation, IF or steering command; moreover the Local-mode encoder
(`control_array` with `ARRAY_INTERFACE == ""`) cannot even produce the
claimed commands — it raises `KeyError` on the empty `BAND_CODES` map
before sending anything. -/
theorem c1_forwarding_counterexample :
    control_array fwdConfig 11600000000 180 0 =
      Except.ok [Event.sendCommands
        [Cmd.pose 0 0 0 0 0, Cmd.pointingGen]] ∧
    ([Cmd.pose 0 0 0 0 0, Cmd.pointingGen].all
      (fun c => ! c.isArrayConfigCmd)) = true ∧
    control_array defaultConfig 11600000000 180 0 =
      Except.error (PyError.keyError "L") := by
  refine ⟨by rfl, by decide, by rfl⟩

/-- The fourteen sweep-name tails produced by a full MessageForwarding
run over the repository ranges (`phi = [0, 180]`,
`theta = [0, 5, 10, 15, 20, 25, 30]`) at `ku = 11.6 GHz`,
`l_band = 1.5 GHz`, in dispatch order: phi-major, theta-minor. Each
invocation's full name is the timestamp followed by one of these. -/
def c3Suffixes : List String :=
  ["_app_cli_message_forewarding__Ku_Freq_11_6GHz_L_Freq_1_5GHz_Phi_0_Theta_0",
   "_app_cli_message_forewarding__Ku_Freq_11_6GHz_L_Freq_1_5GHz_Phi_0_Theta_5",
   "_app_cli_message_forewarding__Ku_Freq_11_6GHz_L_Freq_1_5GHz_Phi_0_Theta_10",
   "_app_cli_message_forewarding__Ku_Freq_11_6GHz_L_Freq_1_5GHz_Phi_0_Theta_15",
   "_app_cli_message_forewarding__Ku_Freq_11_6GHz_L_Freq_1_5GHz_Phi_0_Theta_20",
   "_app_cli_message_forewarding__Ku_Freq_11_6GHz_L_Freq_1_5GHz_Phi_0_Theta_25",
   "_app_cli_message_forewarding__Ku_Freq_11_6GHz_L_Freq_1_5GHz_Phi_0_Theta_30",
   "_app_cli_message_forewarding__Ku_Freq_11_6GHz_L_Freq_1_5GHz_Phi_180_Theta_0",
   "_app_cli_message_forewarding__Ku_Freq_11_6GHz_L_Freq_1_5GHz_Phi_180_Theta_5",
   "_app_cli_message_forewarding__Ku_Freq_11_6GHz_L_Freq_1_5GHz_Phi_180_Theta_10",
   "_app_cli_message_forewarding__Ku_Freq_11_6GHz_L_Freq_1_5GHz_Phi_180_Theta_15",
   "_app_cli_message_forewarding__Ku_Freq_11_6GHz_L_Freq_1_5GHz_Phi_180_Theta_20",
   "_app_cli_message_forewarding__Ku_Freq_11_6GHz_L_Freq_1_5GHz_Phi_180_Theta_25",
   "_app_cli_message_forewarding__Ku_Freq_11_6GHz_L_Freq_1_5GHz_Phi_180_Theta_30"]

/-- Appending a fixed timestamp on the left preserves distinctness of the
name tails. -/
lemma pairwise_ne_map_append (now : String) (l : List String)
    (h : l.Pairwise (· ≠ ·)) :
    (l.map (fun s => now ++ s)).Pairwise (· ≠ ·) := by
  refine List.Pairwise.map _ (fun b c hbc heq => hbc ?_) h
  have hd := congrArg String.data heq
  simp [String.data_append] at hd
  exact String.ext hd

/-- C3. With the repository's deterministic configuration (one frequency
`11600000000`, `phi = [0, 180]`, `theta = [0, 5, ..., 30]`) under the
MessageForwarding interface mode — the only mode in which a run
completes, see C2 — a full `run_sweep_sequence` invokes the measurement
collaborator exactly 14 times, once per (phi, theta) pair in phi-major,
theta-minor order (the single frequency is the outermost level: the main
script calls `run_sweep_sequence` once per configured frequency), each
invocation carrying a distinct sweep name that embeds the formatted
frequency, phi and theta values; the run ends without an exception. -/
theorem c3_full_run_fourteen_measurements (now : String) (ms mr : ℚ → ℚ)
    (randintPhi : ℤ → ℤ → ℕ → ℤ) (randintTheta : ℕ → ℤ → ℤ → ℕ → ℤ) :
    (run_sweep_sequence fwdConfig ms mr randintPhi randintTheta now
        11600000000 1500000000 true).1.filterMap Event.measureName? =
      c3Suffixes.map (fun s => now ++ s) ∧
    (run_sweep_sequence fwdConfig ms mr randintPhi randintTheta now
        11600000000 1500000000 true).2 = Except.ok true ∧
    ((run_sweep_sequence fwdConfig ms mr randintPhi randintTheta now
        11600000000 1500000000 true).1.filterMap Event.measureName?).length
      = 14 ∧
    ((run_sweep_sequence fwdConfig ms mr randintPhi randintTheta now
        11600000000 1500000000 true).1.filterMap
        Event.measureName?).Pairwise (· ≠ ·) := by
  refine ⟨rfl, rfl, ?_, ?_⟩
  · show (c3Suffixes.map (fun s => now ++ s)).length = 14
    rw [List.length_map]
    rfl
  · show (c3Suffixes.map (fun s => now ++ s)).Pairwise (· ≠ ·)
    exact pairwise_ne_map_append now c3Suffixes (by decide)
